import Mathlib

/-!
Verification of the image-conversion upload endpoint (`src/index.ts`).

The endpoint's own logic — format registry, file-type guard, per-file
conversion pipeline, batch fan-out with all-or-nothing semantics, and
response shaping — is embedded shallowly below.  The external image
library (`sharp`) is modelled as an abstract `Codec` record of
metadata/encode operations, each returning `Except String _` where an
`error` value stands for the promise rejecting (throwing) with that
message.  JavaScript runtime builtins are modelled explicitly:
`Number(...)` as an abstract `String → JsNum` conversion (JS numbers
abstracted to integer-or-NaN), `String.prototype.toLowerCase` and
`String.prototype.split` as character-list functions, and
`Buffer.toString("base64")` as a base64 encoder.  Byte buffers are
`List Nat`.
-/

deriving instance DecidableEq for Except

namespace ConvertBe

/-- A byte buffer (`Buffer` / `ArrayBuffer` contents). -/
abbrev Bytes := List Nat

/-- Model of `String.prototype.toLowerCase` (per-character lowering). -/
def jsToLowerCase (s : String) : String :=
  String.mk (s.data.map Char.toLower)

/-- Model of `String.prototype.startsWith`. -/
def jsStartsWith (s pre : String) : Bool :=
  pre.data.isPrefixOf s.data

/-- Core of `String.prototype.split(".")` on the character list: cut at
every `'.'`, keeping empty segments (JS semantics; the result is never
the empty list). -/
def splitDotCore : List Char → List (List Char)
  | [] => [[]]
  | c :: cs =>
    if c == '.' then [] :: splitDotCore cs
    else
      match splitDotCore cs with
      | [] => [[c]]
      | s :: ss => (c :: s) :: ss

/-- Model of `name.split(".")`. -/
def jsSplitDot (s : String) : List String :=
  (splitDotCore s.data).map (fun l => String.mk l)

/-- Base64 alphabet used by `Buffer.toString("base64")`. -/
def base64Table : List Char :=
  "ABCDEFGHIJKLMNOPQRSTUVWXYZabcdefghijklmnopqrstuvwxyz0123456789+/".data

/-- The base64 digit for a 6-bit value. -/
def b64Char (n : Nat) : Char := base64Table.getD n '?'

/-- Model of `Buffer.toString("base64")` (RFC 4648 with padding). -/
def base64Encode : Bytes → String
  | [] => ""
  | [a] =>
    String.mk [b64Char (a % 256 / 4), b64Char (a % 4 * 16), '=', '=']
  | [a, b] =>
    String.mk [b64Char (a % 256 / 4), b64Char (a % 4 * 16 + b % 256 / 16),
               b64Char (b % 16 * 4), '=']
  | a :: b :: c :: rest =>
    String.mk [b64Char (a % 256 / 4), b64Char (a % 4 * 16 + b % 256 / 16),
               b64Char (b % 16 * 4 + c % 256 / 64), b64Char (c % 64)]
      ++ base64Encode rest

/-- A JavaScript number as the upload handler observes it: `NaN` or an
integral value (fractional values play no role in the handler's logic). -/
inductive JsNum where
  | nan : JsNum
  | num : Int → JsNum
deriving Repr, DecidableEq

/-- `SUPPORTED_FORMATS`: target-format key ↦ canonical MIME type, in
source order (`src/index.ts:26-32`). -/
def SUPPORTED_FORMATS : List (String × String) :=
  [("webp", "image/webp"),
   ("avif", "image/avif"),
   ("jpg", "image/jpeg"),
   ("jpeg", "image/jpeg"),
   ("png", "image/png")]

/-- `Object.keys(SUPPORTED_FORMATS)`. -/
def formatKeys : List String := SUPPORTED_FORMATS.map Prod.fst

/-- `Object.values(SUPPORTED_FORMATS)`. -/
def formatValues : List String := SUPPORTED_FORMATS.map Prod.snd

/-- `SUPPORTED_FORMATS[targetFormat]`: property lookup, `none` when the
key is absent (`undefined`). -/
def mimeTypeFor (format : String) : Option String :=
  (SUPPORTED_FORMATS.find? (fun p => p.1 == format)).map Prod.snd

/-- An uploaded `File`: name, declared MIME type, raw bytes. -/
structure UploadedFile where
  name : String
  type : String
  buffer : Bytes
deriving Repr, DecidableEq

/-- `isValidImageType` (`src/index.ts:35-40`): declared type starts with
`"image/"` and occurs among the registry's MIME values. -/
def isValidImageType (file : UploadedFile) : Bool :=
  jsStartsWith file.type "image/" && formatValues.contains file.type

/-- `sharp(buffer).metadata()` result fields the handler reads. -/
structure ImageInfo where
  format : Option String
  width : Option Nat
  height : Option Nat
deriving Repr, DecidableEq

/-- The external image library (`sharp`) as an abstract capability.
Each operation may reject with an error message.  `webp`/`avif` receive
quality and the lossless flag; `jpeg` receives quality and the
`mozjpeg: true` flag; `png` receives quality and
`compressionLevel: 9`. -/
structure Codec where
  metadata : Bytes → Except String ImageInfo
  webp : Bytes → Int → Option Bool → Except String Bytes
  avif : Bytes → Int → Option Bool → Except String Bytes
  jpeg : Bytes → Int → Bool → Except String Bytes
  png : Bytes → Int → Nat → Except String Bytes

/-- `convertImage`'s options parameter (both fields optional,
defaulting to `{}` at the call site's discretion). -/
structure ConvertOptions where
  quality : Option Int := none
  lossless : Option Bool := none
deriving Repr, DecidableEq

/-- Which arm of `convertImage`'s `switch` handles a format. -/
inductive EncodeBranch where
  | webp : EncodeBranch
  | avif : EncodeBranch
  | jpeg : EncodeBranch
  | png : EncodeBranch
deriving Repr, DecidableEq

/-- The `switch (format.toLowerCase())` dispatch (`src/index.ts:63-99`):
`some` names the arm taken, `none` is the `default` arm (throw). -/
def switchBranch (format : String) : Option EncodeBranch :=
  let f := jsToLowerCase format
  if f == "webp" then some EncodeBranch.webp
  else if f == "avif" then some EncodeBranch.avif
  else if f == "jpg" then some EncodeBranch.jpeg
  else if f == "jpeg" then some EncodeBranch.jpeg
  else if f == "png" then some EncodeBranch.png
  else none

/-- A `try { ... } catch (err) { throw new Error(pre + err.message) }`
block: successes pass through, a failure's message is prefixed. -/
def catchWith {α : Type} (pre : String) : Except String α → Except String α
  | Except.ok a => Except.ok a
  | Except.error msg => Except.error (pre ++ msg)

/-- `convertImage` (`src/index.ts:43-105`): read metadata, default the
quality (`options.quality || 80`), dispatch on the lowercased format,
and wrap any failure as `Failed to convert to {format}: {message}`.
The source's `if (!metadata) throw` guard never fires: a resolved
metadata object is always truthy, so the failure mode is the library
call rejecting, which the `Except` already carries. -/
def convertImage (codec : Codec) (buffer : Bytes) (format : String)
    (options : ConvertOptions := {}) : Except String Bytes :=
  catchWith ("Failed to convert to " ++ format ++ ": ")
    (match codec.metadata buffer with
     | Except.error msg => Except.error msg
     | Except.ok _metadata =>
       let quality : Int :=
         match options.quality with
         | none => 80
         | some q => if q = 0 then 80 else q
       match switchBranch format with
       | some EncodeBranch.webp => codec.webp buffer quality options.lossless
       | some EncodeBranch.avif => codec.avif buffer quality options.lossless
       | some EncodeBranch.jpeg => codec.jpeg buffer quality true
       | some EncodeBranch.png => codec.png buffer quality 9
       | none => Except.error ("Unsupported format: " ++ format))

/-- One side (`original` / `converted`) of a result's `metadata`. -/
structure SideInfo where
  format : Option String
  width : Option Nat
  height : Option Nat
  size : Nat
deriving Repr, DecidableEq

/-- The `metadata` object of a converted-file record. -/
structure FileMeta where
  original : SideInfo
  converted : SideInfo
deriving Repr, DecidableEq

/-- The per-file record returned on success (`src/index.ts:160-182`). -/
structure ConvertedFile where
  name : String
  buffer : String
  originalName : String
  size : Nat
  type : Option String
  metadata : FileMeta
deriving Repr, DecidableEq

/-- The body of one arm of `files.map` (`src/index.ts:130-188`): guard
the declared type (outside the `try`, so its error is not wrapped), read
original metadata, convert, read converted metadata, build the record;
any failure inside the `try` is rethrown as
`Failed to convert {file.name}: {message}`. -/
def processFile (codec : Codec) (targetFormat : String) (quality : Int)
    (lossless : Bool) (file : UploadedFile) : Except String ConvertedFile :=
  if !isValidImageType file then
    Except.error ("Invalid file type: " ++ file.name)
  else
    catchWith ("Failed to convert " ++ file.name ++ ": ")
      (match codec.metadata file.buffer with
      | Except.error msg => Except.error msg
      | Except.ok originalInfo =>
        match convertImage codec file.buffer targetFormat
            { quality := some quality, lossless := some lossless } with
        | Except.error msg => Except.error msg
        | Except.ok convertedBuffer =>
          match codec.metadata convertedBuffer with
          | Except.error msg => Except.error msg
          | Except.ok convertedInfo =>
            Except.ok
              { name := (jsSplitDot file.name).headD "" ++ "."
                  ++ jsToLowerCase targetFormat
                buffer := base64Encode convertedBuffer
                originalName := file.name
                size := convertedBuffer.length
                type := mimeTypeFor targetFormat
                metadata :=
                  { original :=
                      { format := originalInfo.format
                        width := originalInfo.width
                        height := originalInfo.height
                        size := file.buffer.length }
                    converted :=
                      { format := convertedInfo.format
                        width := convertedInfo.width
                        height := convertedInfo.height
                        size := convertedBuffer.length } } })

/-- `Promise.all` over already-settled outcomes: all fulfilled yields
the list of values, otherwise the batch rejects with a failing
member's message. -/
def promiseAll {α : Type} : List (Except String α) → Except String (List α)
  | [] => Except.ok []
  | r :: rest =>
    match r with
    | Except.error msg => Except.error msg
    | Except.ok a =>
      match promiseAll rest with
      | Except.error msg => Except.error msg
      | Except.ok as => Except.ok (a :: as)

/-- The parsed multipart form of a `POST /api/upload` request.
`formData.get` yields `none` for an absent field. -/
structure UploadRequest where
  files : List UploadedFile
  targetFormat : String
  qualityField : Option String
  losslessField : Option String
deriving Repr, DecidableEq

/-- The handler's outcome: HTTP 200 with the converted-file records and
the fixed message `"Files converted successfully"`, HTTP 400 with an
`error` string, or HTTP 500 with `error: "Error processing files"` and
the caught message as `details`. -/
inductive UploadResponse where
  | success (files : List ConvertedFile) : UploadResponse
  | validationError (error : String) : UploadResponse
  | serverError (details : String) : UploadResponse
deriving Repr, DecidableEq

/-- The HTTP status code of each response shape. -/
def UploadResponse.status : UploadResponse → Nat
  | UploadResponse.success _ => 200
  | UploadResponse.validationError _ => 400
  | UploadResponse.serverError _ => 500

/-- `Number(formData.get("quality"))`: an absent field is `null` and
`Number(null) = 0`; a present field goes through the JS `Number`
conversion, supplied as `toNumber`. -/
def fieldNumber (toNumber : String → JsNum) : Option String → JsNum
  | none => JsNum.num 0
  | some s => toNumber s

/-- `x || 80`: `NaN` and `0` are falsy, any other value passes. -/
def orElse80 : JsNum → Int
  | JsNum.nan => 80
  | JsNum.num v => if v = 0 then 80 else v

/-- `const quality = Number(formData.get("quality")) || 80`
(`src/index.ts:113`). -/
def requestQuality (toNumber : String → JsNum) (field : Option String) : Int :=
  orElse80 (fieldNumber toNumber field)

/-- `const lossless = formData.get("lossless") === "true"`
(`src/index.ts:114`). -/
def requestLossless : Option String → Bool
  | none => false
  | some s => s == "true"

/-- The whole batch: `Promise.all(files.map(...))` (`src/index.ts:129`). -/
def runBatch (codec : Codec) (targetFormat : String) (quality : Int)
    (lossless : Bool) (files : List UploadedFile) :
    Except String (List ConvertedFile) :=
  promiseAll (files.map (processFile codec targetFormat quality lossless))

/-- The upload handler after the quality/lossless fields are parsed:
validate (no files → 400, unknown format → 400), run the batch, and
shape the response; a batch rejection is caught by the surrounding
`try` and becomes the 500 response (`src/index.ts:107-207`). -/
def handleUploadQ (codec : Codec) (req : UploadRequest) (quality : Int)
    (lossless : Bool) : UploadResponse :=
  if req.files.length = 0 then
    UploadResponse.validationError "No files provided"
  else if !(formatKeys.contains req.targetFormat) then
    UploadResponse.validationError "Unsupported format"
  else
    match runBatch codec req.targetFormat quality lossless req.files with
    | Except.ok results => UploadResponse.success results
    | Except.error msg => UploadResponse.serverError msg

/-- The `POST /api/upload` handler: parse `quality` and `lossless` once
per request, then validate and convert. -/
def handleUpload (codec : Codec) (toNumber : String → JsNum)
    (req : UploadRequest) : UploadResponse :=
  handleUploadQ codec req (requestQuality toNumber req.qualityField)
    (requestLossless req.losslessField)

/-! ### Concrete fixtures

A deterministic codec and sample requests used to instantiate the
general theorems on closed inputs. -/

/-- A codec whose operations all succeed: metadata is a fixed 2×3 png
report, and each encoder prepends a distinct tag byte to its input. -/
def codecOK : Codec where
  metadata := fun _ =>
    Except.ok { format := some "png", width := some 2, height := some 3 }
  webp := fun b _ _ => Except.ok (0 :: b)
  avif := fun b _ _ => Except.ok (1 :: b)
  jpeg := fun b _ _ => Except.ok (2 :: b)
  png := fun b _ _ => Except.ok (3 :: b)

/-- A codec whose metadata read always rejects (unparsable buffers). -/
def codecBad : Codec where
  metadata := fun _ => Except.error "Input buffer contains unsupported image format"
  webp := fun b _ _ => Except.ok b
  avif := fun b _ _ => Except.ok b
  jpeg := fun b _ _ => Except.ok b
  png := fun b _ _ => Except.ok b

/-- A `Number` conversion under which every string is non-numeric. -/
def nanNumber : String → JsNum := fun _ => JsNum.nan

/-- A valid png upload whose name has several dots. -/
def pngFile : UploadedFile :=
  { name := "photo.with.dots.png", type := "image/png", buffer := [7, 8] }

/-- A valid png upload whose name has no dot. -/
def plainFile : UploadedFile :=
  { name := "photo", type := "image/png", buffer := [7] }

/-- A valid png upload whose name begins with a dot. -/
def dotFile : UploadedFile :=
  { name := ".hidden", type := "image/png", buffer := [7] }

/-- An upload whose declared type is not an image type. -/
def textFile : UploadedFile :=
  { name := "doc.txt", type := "text/plain", buffer := [9] }

/-- A single valid file, target webp, no options. -/
def reqGood : UploadRequest :=
  { files := [pngFile], targetFormat := "webp",
    qualityField := none, losslessField := none }

/-- A valid image alongside a `text/plain` file, target webp. -/
def reqMixed : UploadRequest :=
  { files := [pngFile, textFile], targetFormat := "webp",
    qualityField := none, losslessField := none }

/-- No files at all, and an unsupported target format. -/
def reqEmptyBmp : UploadRequest :=
  { files := [], targetFormat := "bmp",
    qualityField := none, losslessField := none }

/-- One valid file but an unsupported target format. -/
def reqBmp : UploadRequest :=
  { files := [pngFile], targetFormat := "bmp",
    qualityField := none, losslessField := none }

/-- One valid file with a non-numeric `quality` field. -/
def reqNanQuality : UploadRequest :=
  { files := [pngFile], targetFormat := "webp",
    qualityField := some "abc", losslessField := none }

/-- The record `codecOK` produces for `pngFile` at target webp. -/
def pngResult : ConvertedFile :=
  { name := "photo.webp", buffer := "AAcI",
    originalName := "photo.with.dots.png", size := 3,
    type := some "image/webp",
    metadata :=
      { original := { format := some "png", width := some 2, height := some 3, size := 2 },
        converted := { format := some "png", width := some 2, height := some 3, size := 3 } } }

/-- The record `codecOK` produces for `plainFile` at target webp. -/
def plainResult : ConvertedFile :=
  { name := "photo.webp", buffer := "AAc=",
    originalName := "photo", size := 2,
    type := some "image/webp",
    metadata :=
      { original := { format := some "png", width := some 2, height := some 3, size := 1 },
        converted := { format := some "png", width := some 2, height := some 3, size := 2 } } }

/-- The record `codecOK` produces for `dotFile` at target webp. -/
def dotResult : ConvertedFile :=
  { name := ".webp", buffer := "AAc=",
    originalName := ".hidden", size := 2,
    type := some "image/webp",
    metadata :=
      { original := { format := some "png", width := some 2, height := some 3, size := 1 },
        converted := { format := some "png", width := some 2, height := some 3, size := 2 } } }

/-- The specification's name derivation, stated in its own words: the
portion of the original name strictly before the first `"."` (all of it
when there is no dot, empty when the name starts with a dot). -/
def beforeFirstDot (s : String) : String :=
  String.mk (s.data.takeWhile (fun c => c != '.'))

/-! ### Helper lemmas -/

theorem catchWith_ok {α : Type} (pre : String) (x : Except String α) (a : α)
    (h : catchWith pre x = Except.ok a) : x = Except.ok a := by
  cases x with
  | ok b => simpa [catchWith] using h
  | error m => simp [catchWith] at h

theorem splitDotCore_ne_nil : ∀ l : List Char, splitDotCore l ≠ []
  | [] => by simp [splitDotCore]
  | c :: cs => by
    simp only [splitDotCore]
    split
    · simp
    · split
      · simp
      · simp

theorem splitDotCore_head : ∀ l : List Char,
    (splitDotCore l).headD [] = l.takeWhile (fun c => c != '.')
  | [] => by simp [splitDotCore]
  | c :: cs => by
    by_cases h : (c == '.') = true
    · have hc : c = '.' := eq_of_beq h
      simp [splitDotCore, List.takeWhile_cons, h, hc]
    · have hc : ¬c = '.' := by
        intro hc
        exact h (by simp [hc])
      cases hs : splitDotCore cs with
      | nil => exact absurd hs (splitDotCore_ne_nil cs)
      | cons s ss =>
        have ih := splitDotCore_head cs
        rw [hs] at ih
        simp only [List.headD_cons] at ih
        simp [splitDotCore, List.takeWhile_cons, h, hc, hs, ih]

theorem jsSplitDot_headD (s : String) :
    (jsSplitDot s).headD "" = String.mk (s.data.takeWhile (fun c => c != '.')) := by
  unfold jsSplitDot
  cases hs : splitDotCore s.data with
  | nil => exact absurd hs (splitDotCore_ne_nil _)
  | cons t ts =>
    have h := splitDotCore_head s.data
    rw [hs] at h
    simp only [List.headD_cons] at h
    simp [h]

theorem promiseAll_error_of_mem {α : Type} (xs : List (Except String α))
    (e : String) (hmem : Except.error e ∈ xs) :
    ∃ msg, promiseAll xs = Except.error msg := by
  induction xs with
  | nil => cases hmem
  | cons x rest ih =>
    cases hmem with
    | head => exact ⟨e, rfl⟩
    | tail _ hm =>
      cases x with
      | error m => exact ⟨m, rfl⟩
      | ok a =>
        obtain ⟨msg, hmsg⟩ := ih hm
        exact ⟨msg, by simp [promiseAll, hmsg]⟩

theorem promiseAll_ok_mem {α : Type} :
    ∀ (xs : List (Except String α)) (ys : List α),
      promiseAll xs = Except.ok ys → ∀ y ∈ ys, Except.ok y ∈ xs := by
  intro xs
  induction xs with
  | nil =>
    intro ys h y hy
    simp only [promiseAll] at h
    cases h
    cases hy
  | cons x rest ih =>
    intro ys h y hy
    cases x with
    | error m => simp [promiseAll] at h
    | ok a =>
      simp only [promiseAll] at h
      cases hr : promiseAll rest with
      | error m => rw [hr] at h; cases h
      | ok as =>
        rw [hr] at h
        cases h
        cases hy with
        | head => exact List.mem_cons_self _ _
        | tail _ hy' => exact List.mem_cons_of_mem _ (ih as hr y hy')

theorem processFile_ok_shape (codec : Codec) (tf : String) (q : Int) (l : Bool)
    (f : UploadedFile) (r : ConvertedFile)
    (h : processFile codec tf q l f = Except.ok r) :
    isValidImageType f = true ∧
    r.name = (jsSplitDot f.name).headD "" ++ "." ++ jsToLowerCase tf ∧
    r.type = mimeTypeFor tf := by
  unfold processFile at h
  by_cases hv : isValidImageType f
  · simp only [hv, Bool.not_true, Bool.false_eq_true, if_false] at h
    have h' := catchWith_ok _ _ _ h
    split at h'
    · cases h'
    · split at h'
      · cases h'
      · split at h'
        · cases h'
        · cases h'
          exact ⟨hv, rfl, rfl⟩
  · simp only [Bool.not_eq_true] at hv
    simp [hv] at h

theorem processFile_error_of_invalid (codec : Codec) (tf : String) (q : Int)
    (l : Bool) (f : UploadedFile) (hv : isValidImageType f = false) :
    processFile codec tf q l f = Except.error ("Invalid file type: " ++ f.name) := by
  simp [processFile, hv]

theorem handleUploadQ_success_inv (codec : Codec) (req : UploadRequest)
    (quality : Int) (lossless : Bool) (results : List ConvertedFile)
    (h : handleUploadQ codec req quality lossless = UploadResponse.success results) :
    req.files.length ≠ 0 ∧ formatKeys.contains req.targetFormat = true ∧
    runBatch codec req.targetFormat quality lossless req.files = Except.ok results := by
  unfold handleUploadQ at h
  by_cases h0 : req.files.length = 0
  · simp [h0] at h
  · simp only [h0, if_false] at h
    by_cases hf : formatKeys.contains req.targetFormat
    · simp only [hf, Bool.not_true, Bool.false_eq_true, if_false] at h
      split at h
      · next rs hb =>
          cases h
          exact ⟨h0, hf, hb⟩
      · next m hb => cases h
    · simp only [Bool.not_eq_true] at hf
      have hmem : req.targetFormat ∉ formatKeys := by simpa using hf
      simp [hmem] at h

theorem mimeTypeFor_of_contains (tf : String)
    (h : formatKeys.contains tf = true) : ∃ m, mimeTypeFor tf = some m := by
  simp only [formatKeys, SUPPORTED_FORMATS, List.map, List.contains_cons,
    List.contains_nil, Bool.or_eq_true, beq_iff_eq, Bool.false_eq_true, or_false] at h
  rcases h with h | h | h | h | h <;> subst h <;> exact ⟨_, rfl⟩

theorem mk_data_eq (s : String) : String.mk s.data = s := by
  cases s
  rfl

theorem mk_append_eq (l : List Char) (t : String) :
    String.mk l ++ t = String.mk (l ++ t.data) := by
  cases t
  rfl

/-! ### Claims -/

/-- C1: for a validated batch, if any single uploaded file fails its
per-file pipeline (unacceptable declared type, metadata read failure, or
encode failure), the whole request yields no success response; once the
request passes batch validation it resolves to a 500 response. -/
theorem batch_all_or_nothing (codec : Codec) (toNumber : String → JsNum)
    (req : UploadRequest) (f : UploadedFile) (e : String)
    (hmem : f ∈ req.files)
    (hfail : processFile codec req.targetFormat
      (requestQuality toNumber req.qualityField)
      (requestLossless req.losslessField) f = Except.error e) :
    (∀ results, handleUpload codec toNumber req ≠ UploadResponse.success results) ∧
    (formatKeys.contains req.targetFormat = true →
      (handleUpload codec toNumber req).status = 500) := by
  have hmapmem : Except.error e ∈
      req.files.map (processFile codec req.targetFormat
        (requestQuality toNumber req.qualityField)
        (requestLossless req.losslessField)) := by
    rw [← hfail]
    exact List.mem_map_of_mem _ hmem
  obtain ⟨msg, hmsg⟩ := promiseAll_error_of_mem _ _ hmapmem
  have h0 : ¬req.files.length = 0 := by
    cases hn : req.files with
    | nil => rw [hn] at hmem; cases hmem
    | cons a as => simp [hn]
  constructor
  · intro results hsucc
    unfold handleUpload at hsucc
    obtain ⟨-, -, hrun⟩ := handleUploadQ_success_inv _ _ _ _ _ hsucc
    unfold runBatch at hrun
    rw [hmsg] at hrun
    cases hrun
  · intro hfmt
    have hmemf : req.targetFormat ∈ formatKeys := by simpa using hfmt
    simp [handleUpload, handleUploadQ, runBatch, h0, hfmt, hmemf, hmsg,
      UploadResponse.status]

/-- C1 witness: a valid image uploaded alongside a `text/plain` file at
target webp yields a 500 response. -/
theorem batch_all_or_nothing_witness :
    (handleUpload codecOK nanNumber reqMixed).status = 500 :=
  (batch_all_or_nothing codecOK nanNumber reqMixed textFile
    "Invalid file type: doc.txt" (by decide) (by decide)).2 (by decide)

/-- C2: every file record of a success response carries exactly the MIME
type `SUPPORTED_FORMATS` maps the request's target format to. -/
theorem success_type_matches_registry (codec : Codec)
    (toNumber : String → JsNum) (req : UploadRequest)
    (results : List ConvertedFile)
    (h : handleUpload codec toNumber req = UploadResponse.success results) :
    ∃ mime, mimeTypeFor req.targetFormat = some mime ∧
      ∀ r ∈ results, r.type = some mime := by
  unfold handleUpload at h
  obtain ⟨-, hfmt, hrun⟩ := handleUploadQ_success_inv _ _ _ _ _ h
  obtain ⟨mime, hmime⟩ := mimeTypeFor_of_contains _ hfmt
  refine ⟨mime, hmime, ?_⟩
  intro r hr
  unfold runBatch at hrun
  have hok := promiseAll_ok_mem _ _ hrun r hr
  obtain ⟨g, hg, hpg⟩ := List.mem_map.mp hok
  have htype := (processFile_ok_shape _ _ _ _ _ _ hpg).2.2
  rw [htype, hmime]

/-- C2 witness: converting the sample png to webp succeeds and the
record's type is the registry's image/webp. -/
theorem success_type_matches_registry_witness :
    ∃ mime, mimeTypeFor reqGood.targetFormat = some mime ∧
      ∀ r ∈ [pngResult], r.type = some mime :=
  success_type_matches_registry codecOK nanNumber reqGood [pngResult]
    (by decide)

/-- C3: the file-type guard accepts a file iff its declared type starts
with `"image/"` and is one of the registry's MIME values (image/webp,
image/avif, image/jpeg, image/png). -/
theorem type_guard_characterization (file : UploadedFile) :
    isValidImageType file = true ↔
      (jsStartsWith file.type "image/" = true ∧
        (file.type = "image/webp" ∨ file.type = "image/avif" ∨
         file.type = "image/jpeg" ∨ file.type = "image/png")) := by
  simp only [isValidImageType, formatValues, SUPPORTED_FORMATS, List.map,
    List.contains_cons, List.contains_nil, Bool.and_eq_true, Bool.or_eq_true,
    beq_iff_eq, Bool.false_eq_true, or_false]
  tauto

/-- C4: a successfully converted file's output name is the portion of
the original name before the first `"."`, then `"."`, then the
lowercased target format. -/
theorem output_name_derivation (codec : Codec) (tf : String) (q : Int)
    (l : Bool) (f : UploadedFile) (r : ConvertedFile)
    (h : processFile codec tf q l f = Except.ok r) :
    r.name = beforeFirstDot f.name ++ "." ++ jsToLowerCase tf := by
  have hn := (processFile_ok_shape _ _ _ _ _ _ h).2.1
  rw [hn, jsSplitDot_headD]
  rfl

/-- C4 witness: `"photo.with.dots.png"` converted to webp is named
`"photo.webp"`. -/
theorem output_name_derivation_witness :
    pngResult.name = beforeFirstDot pngFile.name ++ "." ++ jsToLowerCase "webp" ∧
    pngResult.name = "photo.webp" :=
  ⟨output_name_derivation codecOK "webp" 80 false pngFile pngResult (by decide),
   by decide⟩

/-- C5: the request quality is 80 when the `quality` field is absent,
non-numeric, or zero, and is the field's numeric value otherwise; the
handler computes it once and hands that single value, with the lossless
flag, to the conversion of every file of the request. -/
theorem quality_policy (codec : Codec) (toNumber : String → JsNum)
    (req : UploadRequest) :
    (req.qualityField = none → requestQuality toNumber req.qualityField = 80) ∧
    (∀ s, req.qualityField = some s → toNumber s = JsNum.nan →
      requestQuality toNumber req.qualityField = 80) ∧
    (∀ s, req.qualityField = some s → toNumber s = JsNum.num 0 →
      requestQuality toNumber req.qualityField = 80) ∧
    (∀ s v, req.qualityField = some s → toNumber s = JsNum.num v → v ≠ 0 →
      requestQuality toNumber req.qualityField = v) ∧
    handleUpload codec toNumber req =
      handleUploadQ codec req (requestQuality toNumber req.qualityField)
        (requestLossless req.losslessField) ∧
    runBatch codec req.targetFormat (requestQuality toNumber req.qualityField)
        (requestLossless req.losslessField) req.files =
      promiseAll (req.files.map (processFile codec req.targetFormat
        (requestQuality toNumber req.qualityField)
        (requestLossless req.losslessField))) := by
  refine ⟨?_, ?_, ?_, ?_, rfl, rfl⟩
  · intro h
    simp [h, requestQuality, fieldNumber, orElse80]
  · intro s hf hn
    simp [hf, requestQuality, fieldNumber, orElse80, hn]
  · intro s hf hn
    simp [hf, requestQuality, fieldNumber, orElse80, hn]
  · intro s v hf hn hv
    simp [hf, requestQuality, fieldNumber, orElse80, hn, hv]

/-- C5 witness: a non-numeric quality field defaults to 80. -/
theorem quality_policy_witness :
    requestQuality nanNumber reqNanQuality.qualityField = 80 :=
  (quality_policy codecOK nanNumber reqNanQuality).2.1 "abc" rfl rfl

/-- C6: a request with zero files is answered 400 with the no-files
error, and no conversion is attempted (the response does not depend on
the codec at all). -/
theorem no_files_rejected (codec : Codec) (toNumber : String → JsNum)
    (req : UploadRequest) (h : req.files = []) :
    handleUpload codec toNumber req =
      UploadResponse.validationError "No files provided" ∧
    (handleUpload codec toNumber req).status = 400 ∧
    ∀ codec2 : Codec,
      handleUpload codec2 toNumber req = handleUpload codec toNumber req := by
  have h1 : ∀ c : Codec, handleUpload c toNumber req =
      UploadResponse.validationError "No files provided" := by
    intro c
    simp [handleUpload, handleUploadQ, h]
  refine ⟨h1 codec, ?_, fun c2 => (h1 c2).trans (h1 codec).symm⟩
  rw [h1 codec]
  rfl

/-- C6 witness: the empty request is answered with the no-files 400. -/
theorem no_files_rejected_witness :
    handleUpload codecOK nanNumber reqEmptyBmp =
      UploadResponse.validationError "No files provided" ∧
    (handleUpload codecOK nanNumber reqEmptyBmp).status = 400 ∧
    ∀ codec2 : Codec,
      handleUpload codec2 nanNumber reqEmptyBmp =
        handleUpload codecOK nanNumber reqEmptyBmp :=
  no_files_rejected codecOK nanNumber reqEmptyBmp rfl

/-- C7 counterexample: a request whose target format `"bmp"` is not a
registry key but which carries zero files is answered with the no-files
400, not with one indicating an unsupported format. -/
theorem unsupported_format_counterexample :
    formatKeys.contains reqEmptyBmp.targetFormat = false ∧
    handleUpload codecOK nanNumber reqEmptyBmp =
      UploadResponse.validationError "No files provided" ∧
    handleUpload codecOK nanNumber reqEmptyBmp ≠
      UploadResponse.validationError "Unsupported format" := by
  refine ⟨by decide, by decide, by decide⟩

/-- C7 (amended): a request carrying at least one file whose target
format is not a registry key is answered 400 with the
unsupported-format error. -/
theorem unsupported_format_rejected (codec : Codec)
    (toNumber : String → JsNum) (req : UploadRequest)
    (hne : req.files ≠ [])
    (hfmt : formatKeys.contains req.targetFormat = false) :
    handleUpload codec toNumber req =
      UploadResponse.validationError "Unsupported format" ∧
    (handleUpload codec toNumber req).status = 400 := by
  have h0 : ¬req.files.length = 0 := by
    simpa [List.length_eq_zero] using hne
  have hmem : req.targetFormat ∉ formatKeys := by simpa using hfmt
  constructor
  · simp [handleUpload, handleUploadQ, h0, hmem]
  · simp [handleUpload, handleUploadQ, h0, hmem, UploadResponse.status]

/-- C7 witness: one valid file with target format `"bmp"` gives the
unsupported-format 400. -/
theorem unsupported_format_rejected_witness :
    handleUpload codecOK nanNumber reqBmp =
      UploadResponse.validationError "Unsupported format" ∧
    (handleUpload codecOK nanNumber reqBmp).status = 400 :=
  unsupported_format_rejected codecOK nanNumber reqBmp (by decide) (by decide)

/-- C8 counterexample: `"WEBP"` is outside the registry's key set, yet
`convertImage` does not fail on it — the switch lowercases the format
first, so the webp arm silently handles it. -/
theorem switch_guard_counterexample :
    formatKeys.contains "WEBP" = false ∧
    convertImage codecOK [5] "WEBP" {} = Except.ok [0, 5] := by
  refine ⟨by decide, by decide⟩

/-- C8 (amended): for a target format that is a registry key the
`default` arm of `convertImage`'s switch is unreachable; the `default`
arm is taken exactly for formats whose lowercased form is not a key,
and on those `convertImage` always resolves to an error. -/
theorem switch_guard (tf : String) :
    (formatKeys.contains tf = true → switchBranch tf ≠ none) ∧
    (switchBranch tf = none ↔ formatKeys.contains (jsToLowerCase tf) = false) ∧
    (∀ (codec : Codec) (buffer : Bytes) (opts : ConvertOptions),
      switchBranch tf = none →
        ∃ msg, convertImage codec buffer tf opts = Except.error msg) := by
  refine ⟨?_, ?_, ?_⟩
  · intro h
    simp only [formatKeys, SUPPORTED_FORMATS, List.map, List.contains_cons,
      List.contains_nil, Bool.or_eq_true, beq_iff_eq, Bool.false_eq_true,
      or_false] at h
    rcases h with h | h | h | h | h <;> subst h <;> decide
  · constructor
    · intro h
      by_cases h1 : jsToLowerCase tf = "webp"
      · simp [switchBranch, h1] at h
      · by_cases h2 : jsToLowerCase tf = "avif"
        · simp [switchBranch, h1, h2] at h
        · by_cases h3 : jsToLowerCase tf = "jpg"
          · simp [switchBranch, h1, h2, h3] at h
          · by_cases h4 : jsToLowerCase tf = "jpeg"
            · simp [switchBranch, h1, h2, h3, h4] at h
            · by_cases h5 : jsToLowerCase tf = "png"
              · simp [switchBranch, h1, h2, h3, h4, h5] at h
              · simp [formatKeys, SUPPORTED_FORMATS, h1, h2, h3, h4, h5]
    · intro h
      have hmem : jsToLowerCase tf ∉ formatKeys := by simpa using h
      have h1 : ¬jsToLowerCase tf = "webp" := by
        intro he; exact hmem (by simp [formatKeys, SUPPORTED_FORMATS, he])
      have h2 : ¬jsToLowerCase tf = "avif" := by
        intro he; exact hmem (by simp [formatKeys, SUPPORTED_FORMATS, he])
      have h3 : ¬jsToLowerCase tf = "jpg" := by
        intro he; exact hmem (by simp [formatKeys, SUPPORTED_FORMATS, he])
      have h4 : ¬jsToLowerCase tf = "jpeg" := by
        intro he; exact hmem (by simp [formatKeys, SUPPORTED_FORMATS, he])
      have h5 : ¬jsToLowerCase tf = "png" := by
        intro he; exact hmem (by simp [formatKeys, SUPPORTED_FORMATS, he])
      simp [switchBranch, h1, h2, h3, h4, h5]
  · intro codec buffer opts hsb
    cases hm : codec.metadata buffer with
    | error m =>
      exact ⟨"Failed to convert to " ++ tf ++ ": " ++ m,
        by simp [convertImage, catchWith, hm]⟩
    | ok i =>
      exact ⟨"Failed to convert to " ++ tf ++ ": " ++ ("Unsupported format: " ++ tf),
        by simp [convertImage, catchWith, hm, hsb]⟩

/-- C8 witness: `"webp"` is a key and its switch arm is reachable,
while `"bmp"` lowercases to a non-key and makes `convertImage` fail. -/
theorem switch_guard_witness :
    switchBranch "webp" ≠ none ∧
    ∃ msg, convertImage codecOK [5] "bmp" {} = Except.error msg :=
  ⟨(switch_guard "webp").1 (by decide),
   (switch_guard "bmp").2.2 codecOK [5] {} (by decide)⟩

/-- C9: a request with zero files and an unsupported target format is
answered with the no-files 400 — the emptiness check runs first. -/
theorem no_files_precedes_format_check (codec : Codec)
    (toNumber : String → JsNum) (req : UploadRequest)
    (h : req.files = [])
    (_hfmt : formatKeys.contains req.targetFormat = false) :
    handleUpload codec toNumber req =
      UploadResponse.validationError "No files provided" := by
  simp [handleUpload, handleUploadQ, h]

/-- C9 witness: zero files with target `"bmp"` yields the no-files
error. -/
theorem no_files_precedes_format_check_witness :
    handleUpload codecOK nanNumber reqEmptyBmp =
      UploadResponse.validationError "No files provided" :=
  no_files_precedes_format_check codecOK nanNumber reqEmptyBmp rfl (by decide)

/-- C10: for an original name with no `"."` the whole name is kept as
the base of the output name; for a name beginning with `"."` the base is
empty, so the output name is `"."` followed by the lowercased target
format. -/
theorem output_name_edge_cases (codec : Codec) (tf : String) (q : Int)
    (l : Bool) (f : UploadedFile) (r : ConvertedFile)
    (h : processFile codec tf q l f = Except.ok r) :
    (f.name.data.all (fun c => c != '.') = true →
      r.name = f.name ++ "." ++ jsToLowerCase tf) ∧
    (f.name.data.head? = some '.' →
      r.name = "." ++ jsToLowerCase tf) := by
  have hn := (processFile_ok_shape _ _ _ _ _ _ h).2.1
  rw [jsSplitDot_headD] at hn
  constructor
  · intro hall
    have hself : f.name.data.takeWhile (fun c => c != '.') = f.name.data := by
      rw [List.takeWhile_eq_self_iff]
      intro a ha
      exact List.all_eq_true.mp hall a ha
    rw [hn, hself, mk_data_eq]
  · intro hhead
    cases hd : f.name.data with
    | nil => rw [hd] at hhead; cases hhead
    | cons c cs =>
      rw [hd] at hhead
      have hc : c = '.' := by
        injection hhead with hc
      subst hc
      rw [hn, hd]
      simp only [List.takeWhile_cons]
      norm_num
      rw [mk_append_eq]
      rfl

/-- C10 witness: `"photo"` becomes `"photo.webp"` and `".hidden"`
becomes `".webp"` at target webp. -/
theorem output_name_edge_cases_witness :
    plainResult.name = plainFile.name ++ "." ++ jsToLowerCase "webp" ∧
    dotResult.name = "." ++ jsToLowerCase "webp" :=
  ⟨(output_name_edge_cases codecOK "webp" 80 false plainFile plainResult
      (by decide)).1 (by decide),
   (output_name_edge_cases codecOK "webp" 80 false dotFile dotResult
      (by decide)).2 (by decide)⟩

end ConvertBe
